import Mathlib

/-!
Verification of the image-composition pipeline in `Fig_create.py`.

Images are modelled as lists of rows of rational samples (`ℚ` models the
real-valued float samples exactly; `astype(float)` is the identity on the
modelled values).  `np.min`/`np.max` over an array are modelled as folds of
`min`/`max` over the flattened sample list, as numpy computes them; numpy
raises on an empty array, so theorems about them carry nonemptiness
hypotheses.
-/

/-- A 2-D intensity image: a list of rows of rational samples. -/
abbrev Image : Type := List (List ℚ)

/-- All samples of an image, in row-major order (the flattened array). -/
def Image.samples (img : Image) : List ℚ := img.flatten

/-- `img.shape == (h, w)`: the image has `h` rows, each of width `w`. -/
abbrev IsRect (img : Image) (h w : ℕ) : Prop :=
  img.length = h ∧ ∀ row ∈ img, row.length = w

/-- Minimum of a list of samples (`np.min`; numpy errors on `[]`, the `0`
default is never relied on for nonempty arrays). -/
def listMin : List ℚ → ℚ
  | [] => 0
  | x :: xs => xs.foldl min x

/-- Maximum of a list of samples (`np.max`). -/
def listMax : List ℚ → ℚ
  | [] => 0
  | x :: xs => xs.foldl max x

/-- `img.min()`. -/
def Image.amin (img : Image) : ℚ := listMin img.samples

/-- `img.max()`. -/
def Image.amax (img : Image) : ℚ := listMax img.samples

/-- `img -= img.min()` (line 46 of `Fig_create.py`). -/
def shiftImg (img : Image) : Image :=
  img.map (fun row => row.map (fun x => x - img.amin))

/-- The min-max normalization step of `load_and_normalize` (lines 45–49):
subtract the array minimum, then divide by the new maximum when it is
strictly positive. -/
def normalizeImg (img : Image) : Image :=
  if 0 < (shiftImg img).amax then
    (shiftImg img).map (fun row => row.map (fun x => x / (shiftImg img).amax))
  else
    shiftImg img

/-- `np.zeros((h, w))`. -/
def zerosImg (h w : ℕ) : Image := List.replicate h (List.replicate w (0 : ℚ))

/-- A 3-channel (RGB) image, stored as its three colour planes
(`arr[..., 0]` = red, `arr[..., 1]` = green, `arr[..., 2]` = blue). -/
structure RGBImage where
  r : Image
  g : Image
  b : Image

/-- Exchange the red and green planes of an RGB image. -/
def RGBImage.swapRG (c : RGBImage) : RGBImage :=
  { r := c.g, g := c.r, b := c.b }

/-- `colorize(img_data, color)` (lines 51-61): allocate `np.zeros((h, w, 3))`
from the input's shape, then assign the input to the green plane when
`color == 'green'`, to the red plane when `color == 'red'`, and to no plane
otherwise. -/
def colorize (img_data : Image) (color : String) : RGBImage :=
  if color = "green" then
    { r := zerosImg img_data.length (img_data.headD []).length
      g := img_data
      b := zerosImg img_data.length (img_data.headD []).length }
  else if color = "red" then
    { r := img_data
      g := zerosImg img_data.length (img_data.headD []).length
      b := zerosImg img_data.length (img_data.headD []).length }
  else
    { r := zerosImg img_data.length (img_data.headD []).length
      g := zerosImg img_data.length (img_data.headD []).length
      b := zerosImg img_data.length (img_data.headD []).length }

/-- `np.clip(x, 0, 1)` on one sample. -/
def clip01 (x : ℚ) : ℚ := min 1 (max 0 x)

/-- `np.clip(img, 0, 1)` applied plane-wise. -/
def clipImg (img : Image) : Image := img.map (fun row => row.map clip01)

/-- `create_merge(green_img, red_img)` (lines 63-75): allocate
`np.zeros((h, w, 3))` from the green input's shape, assign the green input to
the green plane and the red input to the red plane, then clip all three
planes to `[0, 1]`. -/
def create_merge (green_img red_img : Image) : RGBImage :=
  { r := clipImg red_img
    g := clipImg green_img
    b := clipImg (zerosImg green_img.length (green_img.headD []).length) }

/-- Outcome of `tifffile.imread(filepath)`: a decoded 2-D array, a raised
`FileNotFoundError`, or any other raised error (unreadable or corrupt
file). -/
inductive ImreadResult where
  | ok (img : Image)
  | fileNotFound
  | otherError

/-- `load_and_normalize(filepath)` (lines 36-49), as a function of the
decoder's outcome on the given path.  Only `FileNotFoundError` is caught
(returning the `np.zeros((100, 100))` placeholder before the normalization
code is reached); any other decoder error propagates (`Except.error`).  On
success the decoded array (its samples already modelled as rationals, so
`astype(float)` is the identity) is min-max normalized. -/
def load_and_normalize : ImreadResult → Except Unit Image
  | .ok img => .ok (normalizeImg img)
  | .fileNotFound => .ok (zerosImg 100 100)
  | .otherError => .error ()

/-- `PIXELS_PER_MICRON = 2.5` (line 29). -/
def PIXELS_PER_MICRON : ℚ := 5 / 2

/-- `SCALE_BAR_LENGTH_UM = 100` (line 30). -/
def SCALE_BAR_LENGTH_UM : ℚ := 100

/-- `bar_len_px = SCALE_BAR_LENGTH_UM * PIXELS_PER_MICRON` (line 141). -/
def bar_len_px : ℚ := SCALE_BAR_LENGTH_UM * PIXELS_PER_MICRON

/-- A `matplotlib.patches.Rectangle((x, y), width, height)` descriptor. -/
structure Rect where
  x : ℚ
  y : ℚ
  width : ℚ
  height : ℚ

/-- The scale-bar rectangle of lines 144-149, computed from the pixel shape
`(img_h, img_w)` of the reference image:
`Rectangle((img_w - bar_len_px - img_w*0.05, img_h - img_h*0.1), bar_len_px, img_h*0.02)`. -/
def scalebarRect (img_h img_w : ℕ) : Rect :=
  { x := (img_w : ℚ) - bar_len_px - (img_w : ℚ) * (5 / 100)
    y := (img_h : ℚ) - (img_h : ℚ) * (10 / 100)
    width := bar_len_px
    height := (img_h : ℚ) * (2 / 100) }

/-- The value of the loop variable `raw_green` after the column loop of
`generate_figure` (lines 91-96): each iteration overwrites it, so after the
loop it holds the last column's green image (`none` when there were no
columns). -/
def loopLastGreen (greens : List Image) : Option Image :=
  greens.foldl (fun _ g => some g) none

/-- The scale-bar rectangle added by `generate_figure` (lines 139-150): its
geometry is taken from `raw_green.shape`, the shape of the loop-leaked last
green image. -/
def generate_figure_scalebar (greens : List Image) : Option Rect :=
  match loopLastGreen greens with
  | none => none
  | some gimg => some (scalebarRect gimg.length (gimg.headD []).length)

/-- The configuration lists of lines 11-25. -/
structure Config where
  COL_LABELS : List String
  ROW_LABELS : List String
  file_matrix : List (List String)

/-- One iteration of the column loop of `generate_figure` (lines 91-136),
tracking in `drawn` the number of panels drawn (`imshow` calls) so far.
In Python order: `file_matrix[0][col_idx]` and `file_matrix[1][col_idx]`
are indexed first — an out-of-range index raises `IndexError` before
anything of this column is drawn (a missing row of `file_matrix` also
raises there, and is covered because `getD` then yields the empty row);
then the column's three panels are drawn; then, for column 0 only,
`ROW_LABELS[0]`, `ROW_LABELS[1]` and `ROW_LABELS[2]` are indexed for the
row labels, raising after this column's panels were already drawn when
there are fewer than three labels. -/
def processCol (cfg : Config) (col_idx drawn : ℕ) : Except Nat Nat :=
  if col_idx < (cfg.file_matrix.getD 0 []).length ∧
      col_idx < (cfg.file_matrix.getD 1 []).length then
    if col_idx = 0 then
      if 3 ≤ cfg.ROW_LABELS.length then Except.ok (drawn + 3)
      else Except.error (drawn + 3)
    else Except.ok (drawn + 3)
  else Except.error drawn

/-- The column loop of `generate_figure`: `for col_idx in range(num_cols)`
with `num_cols = len(COL_LABELS)` (lines 82, 91).  Returns `Except.error d`
when an iteration raises with `d` panels already drawn, and `Except.ok d`
when the loop completes having drawn `d` panels. -/
def generate_figure_run (cfg : Config) : Except Nat Nat :=
  (List.range cfg.COL_LABELS.length).foldlM (fun drawn i => processCol cfg i drawn) 0

/-- Whether `generate_figure` reaches `plt.savefig` (line 157): it does
exactly when the column loop completes without raising. -/
def generate_figure_saves (cfg : Config) : Bool :=
  match generate_figure_run cfg with
  | .ok _ => true
  | .error _ => false

/-! ## Helper lemmas about fold-based array minima and maxima -/

theorem foldl_min_le_init (xs : List ℚ) (x : ℚ) : xs.foldl min x ≤ x := by
  induction xs generalizing x with
  | nil => exact le_refl x
  | cons y ys ih =>
    calc (y :: ys).foldl min x = ys.foldl min (min x y) := rfl
    _ ≤ min x y := ih (min x y)
    _ ≤ x := min_le_left x y

theorem foldl_min_le (xs : List ℚ) (x a : ℚ) (ha : a ∈ xs) : xs.foldl min x ≤ a := by
  induction xs generalizing x with
  | nil => cases ha
  | cons y ys ih =>
    rcases List.mem_cons.mp ha with h | h
    · subst h
      exact le_trans (foldl_min_le_init ys (min x a)) (min_le_right x a)
    · exact ih (min x y) h

theorem foldl_min_mem (xs : List ℚ) (x : ℚ) : xs.foldl min x = x ∨ xs.foldl min x ∈ xs := by
  induction xs generalizing x with
  | nil => exact Or.inl rfl
  | cons y ys ih =>
    rcases ih (min x y) with h | h
    · rcases le_total x y with hxy | hxy
      · left
        rw [List.foldl_cons, h, min_eq_left hxy]
      · right
        rw [List.foldl_cons, h, min_eq_right hxy]
        exact List.mem_cons_self y ys
    · exact Or.inr (List.mem_cons_of_mem y h)

theorem le_foldl_max_init (xs : List ℚ) (x : ℚ) : x ≤ xs.foldl max x := by
  induction xs generalizing x with
  | nil => exact le_refl x
  | cons y ys ih =>
    calc x ≤ max x y := le_max_left x y
    _ ≤ ys.foldl max (max x y) := ih (max x y)
    _ = (y :: ys).foldl max x := rfl

theorem le_foldl_max (xs : List ℚ) (x a : ℚ) (ha : a ∈ xs) : a ≤ xs.foldl max x := by
  induction xs generalizing x with
  | nil => cases ha
  | cons y ys ih =>
    rcases List.mem_cons.mp ha with h | h
    · subst h
      exact le_trans (le_max_right x a) (le_foldl_max_init ys (max x a))
    · exact ih (max x y) h

theorem foldl_max_mem (xs : List ℚ) (x : ℚ) : xs.foldl max x = x ∨ xs.foldl max x ∈ xs := by
  induction xs generalizing x with
  | nil => exact Or.inl rfl
  | cons y ys ih =>
    rcases ih (max x y) with h | h
    · rcases le_total x y with hxy | hxy
      · right
        rw [List.foldl_cons, h, max_eq_right hxy]
        exact List.mem_cons_self y ys
      · left
        rw [List.foldl_cons, h, max_eq_left hxy]
    · exact Or.inr (List.mem_cons_of_mem y h)

theorem foldl_min_map (f : ℚ → ℚ) (hf : ∀ a b : ℚ, f (min a b) = min (f a) (f b))
    (xs : List ℚ) (x : ℚ) : (xs.map f).foldl min (f x) = f (xs.foldl min x) := by
  induction xs generalizing x with
  | nil => rfl
  | cons y ys ih =>
    calc ((y :: ys).map f).foldl min (f x)
        = (ys.map f).foldl min (min (f x) (f y)) := rfl
    _ = (ys.map f).foldl min (f (min x y)) := by rw [hf]
    _ = f (ys.foldl min (min x y)) := ih (min x y)
    _ = f ((y :: ys).foldl min x) := rfl

theorem foldl_max_map (f : ℚ → ℚ) (hf : ∀ a b : ℚ, f (max a b) = max (f a) (f b))
    (xs : List ℚ) (x : ℚ) : (xs.map f).foldl max (f x) = f (xs.foldl max x) := by
  induction xs generalizing x with
  | nil => rfl
  | cons y ys ih =>
    calc ((y :: ys).map f).foldl max (f x)
        = (ys.map f).foldl max (max (f x) (f y)) := rfl
    _ = (ys.map f).foldl max (f (max x y)) := by rw [hf]
    _ = f (ys.foldl max (max x y)) := ih (max x y)
    _ = f ((y :: ys).foldl max x) := rfl

theorem listMin_le (xs : List ℚ) (a : ℚ) (ha : a ∈ xs) : listMin xs ≤ a := by
  match xs, ha with
  | x :: t, ha =>
    rcases List.mem_cons.mp ha with h | h
    · subst h
      exact foldl_min_le_init t a
    · exact foldl_min_le t x a h

theorem le_listMax (xs : List ℚ) (a : ℚ) (ha : a ∈ xs) : a ≤ listMax xs := by
  match xs, ha with
  | x :: t, ha =>
    rcases List.mem_cons.mp ha with h | h
    · subst h
      exact le_foldl_max_init t a
    · exact le_foldl_max t x a h

theorem listMin_mem (xs : List ℚ) (h : xs ≠ []) : listMin xs ∈ xs := by
  match xs, h with
  | x :: t, _ =>
    rcases foldl_min_mem t x with h | h
    · rw [listMin, h]
      exact List.mem_cons_self x t
    · exact List.mem_cons_of_mem x h

theorem listMax_mem (xs : List ℚ) (h : xs ≠ []) : listMax xs ∈ xs := by
  match xs, h with
  | x :: t, _ =>
    rcases foldl_max_mem t x with h | h
    · rw [listMax, h]
      exact List.mem_cons_self x t
    · exact List.mem_cons_of_mem x h

theorem listMin_map (f : ℚ → ℚ) (hf : ∀ a b : ℚ, f (min a b) = min (f a) (f b))
    (xs : List ℚ) (h : xs ≠ []) : listMin (xs.map f) = f (listMin xs) := by
  match xs, h with
  | x :: t, _ => exact foldl_min_map f hf t x

theorem listMax_map (f : ℚ → ℚ) (hf : ∀ a b : ℚ, f (max a b) = max (f a) (f b))
    (xs : List ℚ) (h : xs ≠ []) : listMax (xs.map f) = f (listMax xs) := by
  match xs, h with
  | x :: t, _ => exact foldl_max_map f hf t x

theorem samples_map (f : ℚ → ℚ) (img : Image) :
    Image.samples (img.map (fun row => row.map f)) = (Image.samples img).map f := by
  unfold Image.samples
  exact (List.map_flatten f img).symm

theorem samples_ne_nil_map (f : ℚ → ℚ) (img : Image) (h : Image.samples img ≠ []) :
    Image.samples (img.map (fun row => row.map f)) ≠ [] := by
  rw [samples_map]
  simpa using h
theorem shiftImg_samples (img : Image) :
    Image.samples (shiftImg img) =
      (Image.samples img).map (fun x => x - Image.amin img) :=
  samples_map _ img

theorem shiftImg_samples_ne_nil (img : Image) (h : Image.samples img ≠ []) :
    Image.samples (shiftImg img) ≠ [] := by
  rw [shiftImg_samples]
  simpa using h

theorem shiftImg_amax (img : Image) (h : Image.samples img ≠ []) :
    Image.amax (shiftImg img) = Image.amax img - Image.amin img := by
  unfold Image.amax
  rw [shiftImg_samples]
  exact listMax_map (fun x => x - Image.amin img)
    (fun a b => (max_sub_sub_right a b _).symm) _ h

theorem shiftImg_amin (img : Image) (h : Image.samples img ≠ []) :
    Image.amin (shiftImg img) = 0 := by
  unfold Image.amin
  rw [shiftImg_samples]
  rw [listMin_map (fun x => x - Image.amin img)
    (fun a b => (min_sub_sub_right a b _).symm) _ h]
  exact sub_self _

/-- Claim C1: normalizing a nonempty, non-constant intensity image (the
min-max step of `load_and_normalize`) yields an image whose minimum sample
is 0 and whose maximum sample is 1. -/
theorem C1_normalize_min0_max1 (img : Image) (hne : Image.samples img ≠ [])
    (hnc : ∃ a ∈ Image.samples img, ∃ b ∈ Image.samples img, a ≠ b) :
    Image.amin (normalizeImg img) = 0 ∧ Image.amax (normalizeImg img) = 1 := by
  obtain ⟨a, ha, b, hb, hab⟩ := hnc
  have hlt : Image.amin img < Image.amax img := by
    rcases lt_or_le (Image.amin img) (Image.amax img) with h | h
    · exact h
    · exact absurd
        (le_antisymm
          (le_trans (le_listMax _ a ha) (le_trans h (listMin_le _ b hb)))
          (le_trans (le_listMax _ b hb) (le_trans h (listMin_le _ a ha))))
        hab
  have hpos : 0 < Image.amax (shiftImg img) := by
    rw [shiftImg_amax img hne]
    linarith
  have hsne : Image.samples (shiftImg img) ≠ [] := shiftImg_samples_ne_nil img hne
  have hdiv : normalizeImg img =
      (shiftImg img).map (fun row => row.map (fun x => x / Image.amax (shiftImg img))) := by
    unfold normalizeImg
    rw [if_pos hpos]
  constructor
  · rw [hdiv]
    show listMin (Image.samples ((shiftImg img).map
      (fun row => row.map (fun x => x / Image.amax (shiftImg img))))) = 0
    rw [samples_map]
    rw [listMin_map (fun x => x / Image.amax (shiftImg img))
      (fun a b => (min_div_div_right (le_of_lt hpos) a b).symm) _ hsne]
    have h0 : listMin (Image.samples (shiftImg img)) = 0 := shiftImg_amin img hne
    rw [h0, zero_div]
  · rw [hdiv]
    show listMax (Image.samples ((shiftImg img).map
      (fun row => row.map (fun x => x / Image.amax (shiftImg img))))) = 1
    rw [samples_map]
    rw [listMax_map (fun x => x / Image.amax (shiftImg img))
      (fun a b => (max_div_div_right (le_of_lt hpos) a b).symm) _ hsne]
    exact div_self (ne_of_gt hpos)

/-- Witness for C1 on the concrete non-constant image `[[0, 2]]`. -/
theorem C1_normalize_min0_max1_witness :
    Image.samples [[(0 : ℚ), 2]] ≠ [] ∧
    (∃ a ∈ Image.samples [[(0 : ℚ), 2]], ∃ b ∈ Image.samples [[(0 : ℚ), 2]], a ≠ b) ∧
    (Image.amin (normalizeImg [[(0 : ℚ), 2]]) = 0 ∧
     Image.amax (normalizeImg [[(0 : ℚ), 2]]) = 1) :=
  ⟨by decide, by decide, C1_normalize_min0_max1 [[(0 : ℚ), 2]] (by decide) (by decide)⟩

/-- Claim C2: a nonempty constant-valued image (all samples equal `c`)
normalizes to an all-zero image of the same row-length profile, and the
`img.max() > 0` guard of the division is false there, so the division on a
zero maximum is never executed. -/
theorem C2_normalize_const (img : Image) (c : ℚ) (hne : Image.samples img ≠ [])
    (hconst : ∀ s ∈ Image.samples img, s = c) :
    (∀ s ∈ Image.samples (normalizeImg img), s = 0) ∧
    (normalizeImg img).map List.length = img.map List.length ∧
    ¬ 0 < Image.amax (shiftImg img) := by
  have hminc : Image.amin img = c := hconst _ (listMin_mem _ hne)
  have hshift0 : ∀ s ∈ Image.samples (shiftImg img), s = 0 := by
    rw [shiftImg_samples]
    intro s hs
    obtain ⟨t, ht, rfl⟩ := List.mem_map.mp hs
    rw [hconst t ht, hminc, sub_self]
  have hamax0 : Image.amax (shiftImg img) = 0 :=
    hshift0 _ (listMax_mem _ (shiftImg_samples_ne_nil img hne))
  have hng : ¬ 0 < Image.amax (shiftImg img) := by
    rw [hamax0]
    exact lt_irrefl 0
  have hnorm : normalizeImg img = shiftImg img := by
    unfold normalizeImg
    rw [if_neg hng]
  refine ⟨?_, ?_, hng⟩
  · rw [hnorm]
    exact hshift0
  · rw [hnorm]
    unfold shiftImg
    simp [List.map_map, Function.comp_def]

/-- Witness for C2 on the concrete constant image `[[5, 5], [5, 5]]`. -/
theorem C2_normalize_const_witness :
    Image.samples [[(5 : ℚ), 5], [5, 5]] ≠ [] ∧
    (∀ s ∈ Image.samples [[(5 : ℚ), 5], [5, 5]], s = 5) ∧
    ((∀ s ∈ Image.samples (normalizeImg [[(5 : ℚ), 5], [5, 5]]), s = 0) ∧
     (normalizeImg [[(5 : ℚ), 5], [5, 5]]).map List.length =
       [[(5 : ℚ), 5], [5, 5]].map List.length ∧
     ¬ 0 < Image.amax (shiftImg [[(5 : ℚ), 5], [5, 5]])) :=
  ⟨by decide, by decide,
    C2_normalize_const [[(5 : ℚ), 5], [5, 5]] 5 (by decide) (by decide)⟩

/-- Claim C9: the normalization step is idempotent on already-normalized
images with positive range: if the minimum is 0 and the maximum is 1,
re-normalizing returns the image unchanged (exactly, in the rational
model). -/
theorem C9_normalize_idempotent (img : Image) (hmin : Image.amin img = 0)
    (hmax : Image.amax img = 1) : normalizeImg img = img := by
  have hshift : shiftImg img = img := by
    unfold shiftImg
    rw [hmin]
    simp
  have hpos : 0 < Image.amax (shiftImg img) := by
    rw [hshift, hmax]
    norm_num
  unfold normalizeImg
  rw [if_pos hpos, hshift, hmax]
  simp

/-- Witness for C9 on the concrete already-normalized image `[[0, 1]]`. -/
theorem C9_normalize_idempotent_witness :
    Image.amin [[(0 : ℚ), 1]] = 0 ∧ Image.amax [[(0 : ℚ), 1]] = 1 ∧
    normalizeImg [[(0 : ℚ), 1]] = [[(0 : ℚ), 1]] :=
  ⟨by decide, by decide, C9_normalize_idempotent [[(0 : ℚ), 1]] (by decide) (by decide)⟩

theorem zerosImg_samples (h w : ℕ) : ∀ s ∈ Image.samples (zerosImg h w), s = 0 := by
  intro s hs
  unfold Image.samples zerosImg at hs
  obtain ⟨row, hrow, hsrow⟩ := List.mem_flatten.mp hs
  rw [List.eq_of_mem_replicate hrow] at hsrow
  exact List.eq_of_mem_replicate hsrow

theorem zerosImg_isRect (h w : ℕ) : IsRect (zerosImg h w) h w := by
  constructor
  · exact List.length_replicate h _
  · intro row hrow
    rw [List.eq_of_mem_replicate hrow]
    exact List.length_replicate w _

theorem zeros_of_shape (img : Image) (h w : ℕ) (hr : IsRect img h w) :
    zerosImg img.length (List.headD img []).length = zerosImg h w := by
  obtain ⟨hl, hw⟩ := hr
  cases img with
  | nil =>
    subst hl
    rfl
  | cons row t =>
    subst hl
    rw [List.headD_cons, hw row (List.mem_cons_self row t)]

/-- Claim C4: for a h×w image and either requested axis, `colorize` places
the input exactly in the requested channel plane (index 1 for green, index
0 for red) and leaves the other two planes as the all-zero h×w plane. -/
theorem C4_colorize_channels (img : Image) (h w : ℕ) (hr : IsRect img h w) :
    colorize img "green" = { r := zerosImg h w, g := img, b := zerosImg h w } ∧
    colorize img "red" = { r := img, g := zerosImg h w, b := zerosImg h w } ∧
    IsRect (zerosImg h w) h w ∧
    (∀ s ∈ Image.samples (zerosImg h w), s = 0) := by
  have hz := zeros_of_shape img h w hr
  refine ⟨?_, ?_, zerosImg_isRect h w, zerosImg_samples h w⟩
  · unfold colorize
    rw [if_pos rfl, hz]
  · unfold colorize
    rw [if_neg (by decide), if_pos rfl, hz]

/-- Witness for C4 on the concrete 2×2 image `[[1, 2], [3, 4]]`. -/
theorem C4_colorize_channels_witness :
    IsRect [[(1 : ℚ), 2], [3, 4]] 2 2 ∧
    (colorize [[(1 : ℚ), 2], [3, 4]] "green" =
      { r := zerosImg 2 2, g := [[(1 : ℚ), 2], [3, 4]], b := zerosImg 2 2 } ∧
    colorize [[(1 : ℚ), 2], [3, 4]] "red" =
      { r := [[(1 : ℚ), 2], [3, 4]], g := zerosImg 2 2, b := zerosImg 2 2 } ∧
    IsRect (zerosImg 2 2) 2 2 ∧
    (∀ s ∈ Image.samples (zerosImg 2 2), s = 0)) :=
  ⟨by decide, C4_colorize_channels [[(1 : ℚ), 2], [3, 4]] 2 2 (by decide)⟩

/-- Claim C10: for any color argument other than "green" or "red",
`colorize` returns, without failing, the all-zero 3-channel image of the
input's height and width; the input samples are discarded. -/
theorem C10_colorize_other (img : Image) (color : String)
    (hg : color ≠ "green") (hrd : color ≠ "red") :
    colorize img color =
      { r := zerosImg img.length (List.headD img []).length
        g := zerosImg img.length (List.headD img []).length
        b := zerosImg img.length (List.headD img []).length } ∧
    IsRect (zerosImg img.length (List.headD img []).length)
      img.length (List.headD img []).length ∧
    (∀ s ∈ Image.samples (zerosImg img.length (List.headD img []).length), s = 0) := by
  refine ⟨?_, zerosImg_isRect _ _, zerosImg_samples _ _⟩
  unfold colorize
  rw [if_neg hg, if_neg hrd]

/-- Witness for C10 on the concrete image `[[1, 2]]` with color "blue". -/
theorem C10_colorize_other_witness :
    ("blue" : String) ≠ "green" ∧ ("blue" : String) ≠ "red" ∧
    (colorize [[(1 : ℚ), 2]] "blue" =
      { r := zerosImg (List.length [[(1 : ℚ), 2]]) (List.headD [[(1 : ℚ), 2]] []).length
        g := zerosImg (List.length [[(1 : ℚ), 2]]) (List.headD [[(1 : ℚ), 2]] []).length
        b := zerosImg (List.length [[(1 : ℚ), 2]]) (List.headD [[(1 : ℚ), 2]] []).length } ∧
    IsRect (zerosImg (List.length [[(1 : ℚ), 2]]) (List.headD [[(1 : ℚ), 2]] []).length)
      (List.length [[(1 : ℚ), 2]]) (List.headD [[(1 : ℚ), 2]] []).length ∧
    (∀ s ∈ Image.samples (zerosImg (List.length [[(1 : ℚ), 2]])
      (List.headD [[(1 : ℚ), 2]] []).length), s = 0)) :=
  ⟨by decide, by decide, C10_colorize_other [[(1 : ℚ), 2]] "blue" (by decide) (by decide)⟩

theorem clip01_zero : clip01 0 = 0 := by
  unfold clip01
  norm_num

theorem clipImg_zeros (h w : ℕ) : clipImg (zerosImg h w) = zerosImg h w := by
  unfold clipImg zerosImg
  rw [List.map_replicate, List.map_replicate, clip01_zero]

theorem clip01_bounds (x : ℚ) : 0 ≤ clip01 x ∧ clip01 x ≤ 1 := by
  unfold clip01
  exact ⟨le_min (by norm_num) (le_max_left 0 x), min_le_left 1 _⟩

theorem clipImg_samples_bounds (img : Image) :
    ∀ s ∈ Image.samples (clipImg img), 0 ≤ s ∧ s ≤ 1 := by
  intro s hs
  unfold clipImg at hs
  rw [samples_map] at hs
  obtain ⟨t, _, rfl⟩ := List.mem_map.mp hs
  exact clip01_bounds t

/-- Claim C6: every sample of every channel of the composite returned by
`create_merge` lies in [0, 1], whatever the input samples are: the output
is clamped to the valid display range. -/
theorem C6_merge_clamped (green_img red_img : Image) :
    (∀ s ∈ Image.samples (create_merge green_img red_img).r, 0 ≤ s ∧ s ≤ 1) ∧
    (∀ s ∈ Image.samples (create_merge green_img red_img).g, 0 ≤ s ∧ s ≤ 1) ∧
    (∀ s ∈ Image.samples (create_merge green_img red_img).b, 0 ≤ s ∧ s ≤ 1) :=
  ⟨clipImg_samples_bounds red_img, clipImg_samples_bounds green_img,
    clipImg_samples_bounds _⟩

/-- Claim C5: for same-shape inputs, `create_merge b a` equals
`create_merge a b` with the red and green planes exchanged (each input
occupies the other physical color axis), and the blue plane is all-zero in
both composites. -/
theorem C5_merge_swap (a b : Image) (h w : ℕ) (ha : IsRect a h w) (hb : IsRect b h w) :
    create_merge b a = RGBImage.swapRG (create_merge a b) ∧
    (∀ s ∈ Image.samples (create_merge a b).b, s = 0) ∧
    (∀ s ∈ Image.samples (create_merge b a).b, s = 0) := by
  have hza := zeros_of_shape a h w ha
  have hzb := zeros_of_shape b h w hb
  refine ⟨?_, ?_, ?_⟩
  · unfold create_merge RGBImage.swapRG
    rw [hza, hzb]
  · show ∀ s ∈ Image.samples (clipImg (zerosImg a.length (List.headD a []).length)), s = 0
    rw [hza, clipImg_zeros]
    exact zerosImg_samples h w
  · show ∀ s ∈ Image.samples (clipImg (zerosImg b.length (List.headD b []).length)), s = 0
    rw [hzb, clipImg_zeros]
    exact zerosImg_samples h w

/-- Witness for C5 on two concrete 2×2 images. -/
theorem C5_merge_swap_witness :
    IsRect [[(1 : ℚ), 2], [3, 4]] 2 2 ∧ IsRect [[(5 : ℚ), 6], [7, 8]] 2 2 ∧
    (create_merge [[(5 : ℚ), 6], [7, 8]] [[(1 : ℚ), 2], [3, 4]] =
      RGBImage.swapRG (create_merge [[(1 : ℚ), 2], [3, 4]] [[(5 : ℚ), 6], [7, 8]]) ∧
    (∀ s ∈ Image.samples (create_merge [[(1 : ℚ), 2], [3, 4]] [[(5 : ℚ), 6], [7, 8]]).b, s = 0) ∧
    (∀ s ∈ Image.samples (create_merge [[(5 : ℚ), 6], [7, 8]] [[(1 : ℚ), 2], [3, 4]]).b, s = 0)) :=
  ⟨by decide, by decide,
    C5_merge_swap [[(1 : ℚ), 2], [3, 4]] [[(5 : ℚ), 6], [7, 8]] 2 2 (by decide) (by decide)⟩

/-- Claim C3 counterexample: a decoder failure other than
`FileNotFoundError` — an existing but unreadable or corrupt file — is not
caught by `load_and_normalize`, which propagates the exception instead of
returning the placeholder, so "file missing or unreadable → does not raise"
is false on the unreadable side. -/
theorem C3_load_counterexample :
    load_and_normalize ImreadResult.otherError = Except.error () := rfl

/-- Claim C3 amended: only `FileNotFoundError` is caught and mapped to the
all-zero 100×100 placeholder; any other decoder failure propagates to the
caller; on a successful decode the real-valued array is processed (then
normalized) rather than raising. -/
theorem C3_load_amended :
    load_and_normalize ImreadResult.fileNotFound = Except.ok (zerosImg 100 100) ∧
    (∀ img : Image, load_and_normalize (ImreadResult.ok img) = Except.ok (normalizeImg img)) ∧
    load_and_normalize ImreadResult.otherError = Except.error () ∧
    IsRect (zerosImg 100 100) 100 100 ∧
    (∀ s ∈ Image.samples (zerosImg 100 100), s = 0) :=
  ⟨rfl, fun _ => rfl, rfl, zerosImg_isRect 100 100, zerosImg_samples 100 100⟩

/-- Claim C7: the scale-bar rectangle added by `generate_figure` takes its
geometry from the pixel shape of the loop-leaked last-processed green
image; its width equals `SCALE_BAR_LENGTH_UM * PIXELS_PER_MICRON` exactly;
and whenever the reference image is at least as wide as the bar plus its 5%
right margin, the whole rectangle (with its 10% bottom offset and 2%-height
body) lies within the image bounds. -/
theorem C7_scalebar_geometry (greens : List Image) (gimg : Image)
    (hlast : loopLastGreen greens = some gimg)
    (hfit : bar_len_px + ((List.headD gimg []).length : ℚ) * (5 / 100) ≤
      ((List.headD gimg []).length : ℚ)) :
    generate_figure_scalebar greens =
      some (scalebarRect gimg.length (List.headD gimg []).length) ∧
    (scalebarRect gimg.length (List.headD gimg []).length).width =
      SCALE_BAR_LENGTH_UM * PIXELS_PER_MICRON ∧
    0 ≤ (scalebarRect gimg.length (List.headD gimg []).length).x ∧
    (scalebarRect gimg.length (List.headD gimg []).length).x +
      (scalebarRect gimg.length (List.headD gimg []).length).width ≤
      ((List.headD gimg []).length : ℚ) ∧
    0 ≤ (scalebarRect gimg.length (List.headD gimg []).length).y ∧
    (scalebarRect gimg.length (List.headD gimg []).length).y +
      (scalebarRect gimg.length (List.headD gimg []).length).height ≤
      (gimg.length : ℚ) := by
  have hW : (0 : ℚ) ≤ ((List.headD gimg []).length : ℚ) := Nat.cast_nonneg _
  have hH : (0 : ℚ) ≤ (gimg.length : ℚ) := Nat.cast_nonneg _
  refine ⟨?_, rfl, ?_, ?_, ?_, ?_⟩
  · unfold generate_figure_scalebar
    rw [hlast]
  · show (0 : ℚ) ≤ ((List.headD gimg []).length : ℚ) - bar_len_px -
      ((List.headD gimg []).length : ℚ) * (5 / 100)
    linarith
  · show ((List.headD gimg []).length : ℚ) - bar_len_px -
      ((List.headD gimg []).length : ℚ) * (5 / 100) + bar_len_px ≤
      ((List.headD gimg []).length : ℚ)
    linarith
  · show (0 : ℚ) ≤ (gimg.length : ℚ) - (gimg.length : ℚ) * (10 / 100)
    linarith
  · show (gimg.length : ℚ) - (gimg.length : ℚ) * (10 / 100) +
      (gimg.length : ℚ) * (2 / 100) ≤ (gimg.length : ℚ)
    linarith

/-- Witness for C7 on a concrete 1×300 reference image: the bar is 250
pixels wide (100 µm at 2.5 px/µm) and fits inside the 300-pixel width. -/
theorem C7_scalebar_geometry_witness :
    bar_len_px = 250 ∧
    loopLastGreen [[List.replicate 300 (0 : ℚ)]] = some [List.replicate 300 (0 : ℚ)] ∧
    bar_len_px + ((List.headD [List.replicate 300 (0 : ℚ)] []).length : ℚ) * (5 / 100) ≤
      ((List.headD [List.replicate 300 (0 : ℚ)] []).length : ℚ) ∧
    (generate_figure_scalebar [[List.replicate 300 (0 : ℚ)]] =
      some (scalebarRect (List.length [List.replicate 300 (0 : ℚ)])
        (List.headD [List.replicate 300 (0 : ℚ)] []).length) ∧
    (scalebarRect (List.length [List.replicate 300 (0 : ℚ)])
      (List.headD [List.replicate 300 (0 : ℚ)] []).length).width =
      SCALE_BAR_LENGTH_UM * PIXELS_PER_MICRON ∧
    0 ≤ (scalebarRect (List.length [List.replicate 300 (0 : ℚ)])
      (List.headD [List.replicate 300 (0 : ℚ)] []).length).x ∧
    (scalebarRect (List.length [List.replicate 300 (0 : ℚ)])
      (List.headD [List.replicate 300 (0 : ℚ)] []).length).x +
      (scalebarRect (List.length [List.replicate 300 (0 : ℚ)])
        (List.headD [List.replicate 300 (0 : ℚ)] []).length).width ≤
      ((List.headD [List.replicate 300 (0 : ℚ)] []).length : ℚ) ∧
    0 ≤ (scalebarRect (List.length [List.replicate 300 (0 : ℚ)])
      (List.headD [List.replicate 300 (0 : ℚ)] []).length).y ∧
    (scalebarRect (List.length [List.replicate 300 (0 : ℚ)])
      (List.headD [List.replicate 300 (0 : ℚ)] []).length).y +
      (scalebarRect (List.length [List.replicate 300 (0 : ℚ)])
        (List.headD [List.replicate 300 (0 : ℚ)] []).length).height ≤
      ((List.length [List.replicate 300 (0 : ℚ)]) : ℚ)) :=
  ⟨by norm_num [bar_len_px, SCALE_BAR_LENGTH_UM, PIXELS_PER_MICRON], rfl,
    by norm_num [bar_len_px, SCALE_BAR_LENGTH_UM, PIXELS_PER_MICRON],
    C7_scalebar_geometry [[List.replicate 300 (0 : ℚ)]] [List.replicate 300 (0 : ℚ)] rfl
      (by norm_num [bar_len_px, SCALE_BAR_LENGTH_UM, PIXELS_PER_MICRON])⟩

theorem foldlM_cons_except (f : ℕ → ℕ → Except ℕ ℕ) (b a : ℕ) (l : List ℕ) :
    (a :: l).foldlM f b = f b a >>= fun x => l.foldlM f x := rfl

theorem run_errors_of_col_fails (cfg : Config) (l : List ℕ) :
    ∀ d : ℕ, (∃ i ∈ l, ∀ d', ∃ e, processCol cfg i d' = Except.error e) →
    ∃ e, l.foldlM (fun drawn i => processCol cfg i drawn) d = Except.error e := by
  induction l with
  | nil =>
    intro d hex
    obtain ⟨i, hi, _⟩ := hex
    cases hi
  | cons j t ih =>
    intro d hex
    obtain ⟨i, hi, hfail⟩ := hex
    rcases List.mem_cons.mp hi with rfl | hit
    · obtain ⟨e, he⟩ := hfail d
      refine ⟨e, ?_⟩
      rw [foldlM_cons_except, he]
      rfl
    · rcases hj : processCol cfg j d with e | d'
      · refine ⟨e, ?_⟩
        rw [foldlM_cons_except, hj]
        rfl
      · obtain ⟨e, he⟩ := ih d' ⟨i, hit, hfail⟩
        refine ⟨e, ?_⟩
        rw [foldlM_cons_except, hj]
        exact he

theorem processCol_fails_path (cfg : Config) (i d : ℕ)
    (h : (cfg.file_matrix.getD 0 []).length ≤ i ∨
         (cfg.file_matrix.getD 1 []).length ≤ i) :
    ∃ e, processCol cfg i d = Except.error e := by
  refine ⟨d, ?_⟩
  unfold processCol
  rw [if_neg (by omega)]

theorem processCol_fails_labels (cfg : Config) (d : ℕ)
    (h : cfg.ROW_LABELS.length < 3) :
    ∃ e, processCol cfg 0 d = Except.error e := by
  unfold processCol
  by_cases hp : 0 < (cfg.file_matrix.getD 0 []).length ∧
      0 < (cfg.file_matrix.getD 1 []).length
  · refine ⟨d + 3, ?_⟩
    rw [if_pos hp, if_pos rfl, if_neg (by omega)]
  · refine ⟨d, ?_⟩
    rw [if_neg hp]

/-- Claim C8 amended: an inconsistent configuration — a file-path row
shorter than the Condition-label list, or fewer than three row labels with
at least one condition — makes the column loop of `generate_figure` raise
an index error, so `plt.savefig` is never reached and no output file is
produced; the failure happens during the grid pass, not before it. -/
theorem C8_mismatch_aborts (cfg : Config)
    (hmis : (cfg.file_matrix.getD 0 []).length < cfg.COL_LABELS.length ∨
            (cfg.file_matrix.getD 1 []).length < cfg.COL_LABELS.length ∨
            (cfg.ROW_LABELS.length < 3 ∧ 0 < cfg.COL_LABELS.length)) :
    (∃ d, generate_figure_run cfg = Except.error d) ∧
    generate_figure_saves cfg = false := by
  have hrun : ∃ d, generate_figure_run cfg = Except.error d := by
    unfold generate_figure_run
    apply run_errors_of_col_fails cfg _ 0
    rcases hmis with h | h | ⟨h3, hn⟩
    · refine ⟨(cfg.file_matrix.getD 0 []).length, List.mem_range.mpr h, fun d' => ?_⟩
      exact processCol_fails_path cfg _ d' (Or.inl (le_refl _))
    · refine ⟨(cfg.file_matrix.getD 1 []).length, List.mem_range.mpr h, fun d' => ?_⟩
      exact processCol_fails_path cfg _ d' (Or.inr (le_refl _))
    · exact ⟨0, List.mem_range.mpr hn, fun d' => processCol_fails_labels cfg d' h3⟩
  obtain ⟨d, hd⟩ := hrun
  refine ⟨⟨d, hd⟩, ?_⟩
  unfold generate_figure_saves
  rw [hd]

/-- Witness for the amended C8 on a concrete inconsistent configuration
(one condition label, no file-path rows at all). -/
theorem C8_mismatch_aborts_witness :
    ((({ COL_LABELS := ["A"], ROW_LABELS := [], file_matrix := [] } : Config).file_matrix.getD 0 []).length <
        ({ COL_LABELS := ["A"], ROW_LABELS := [], file_matrix := [] } : Config).COL_LABELS.length ∨
      (({ COL_LABELS := ["A"], ROW_LABELS := [], file_matrix := [] } : Config).file_matrix.getD 1 []).length <
        ({ COL_LABELS := ["A"], ROW_LABELS := [], file_matrix := [] } : Config).COL_LABELS.length ∨
      (({ COL_LABELS := ["A"], ROW_LABELS := [], file_matrix := [] } : Config).ROW_LABELS.length < 3 ∧
        0 < ({ COL_LABELS := ["A"], ROW_LABELS := [], file_matrix := [] } : Config).COL_LABELS.length)) ∧
    ((∃ d, generate_figure_run
        ({ COL_LABELS := ["A"], ROW_LABELS := [], file_matrix := [] } : Config) = Except.error d) ∧
      generate_figure_saves
        ({ COL_LABELS := ["A"], ROW_LABELS := [], file_matrix := [] } : Config) = false) :=
  ⟨Or.inl (by decide), C8_mismatch_aborts _ (Or.inl (by decide))⟩

/-- Claim C8 counterexample: with two condition labels but only one
file-path entry per channel row, the run does fail, but only with
`Except.error 3`: the first column's three panels were already drawn when
the out-of-range index was hit, so the failure is not "before any drawing
work begins". -/
theorem C8_counterexample :
    generate_figure_run { COL_LABELS := ["A", "B"], ROW_LABELS := ["G", "R", "M"], file_matrix := [["g1"], ["r1"]] } = Except.error 3 ∧ (3 : ℕ) ≠ 0 :=
  ⟨rfl, by decide⟩
